import Mathlib

/-!
Shallow embedding of the Model Picker plugin (`src/__init__.py`), a set of
operators over a host-provided dataset object: label-field visibility
toggling, per-field notes, per-field label statistics, and a saved-view
registry tagged through a description-string convention.

The host dataset is modelled as a `Dataset` structure carrying the pieces of
host state the plugin reads and writes: the label-field schemas (sample and
frame level, the frame schema optional since `get_frame_field_schema` can
return `None`), the flat schemas, the evaluation-run registry, the value of
the `model_picker_field_notes` metadata key (absent modelled as `none`), the
saved-view registry, and the two aggregation primitives `count`/`distinct`,
modelled as oracles returning `Except` so that the plugin's try/except
blocks can be expressed.

Python string dictionaries are modelled as association lists, Python string
operations (`in`, `startswith`, `replace`, `strip`, `sorted`) by the
corresponding functions on `String`/`List Char`, and Python's `list(set(xs))`
(unspecified order, no duplicates) by `List.dedup`.
-/

set_option autoImplicit false

namespace ModelPickerSpec

/-- Python `pat in s` (substring containment): `pat.data` is an infix of `s.data`. -/
def strContains (s pat : String) : Bool := decide (pat.data <:+: s.data)

/-- Python `s.startswith(pat)`: `pat.data` is a prefix of `s.data`. -/
def strStartsWith (s pat : String) : Bool := decide (pat.data <+: s.data)

/-- The ASCII whitespace characters removed by Python `str.strip()`. -/
def isPySpace (c : Char) : Bool :=
  c == ' ' || c == '\t' || c == '\n' || c == '\r' || c == '\x0b' || c == '\x0c'

/-- Python `s.strip()`: drop leading and trailing whitespace. -/
def pyStrip (s : String) : String :=
  ⟨((s.data.dropWhile isPySpace).reverse.dropWhile isPySpace).reverse⟩

/-- Lexicographic `≤` on code points, Python's `<=` on strings. -/
def pyStrLeList : List Char → List Char → Bool
  | [], _ => true
  | _ :: _, [] => false
  | a :: as, b :: bs =>
    if a.toNat < b.toNat then true
    else if b.toNat < a.toNat then false
    else pyStrLeList as bs

/-- Python `a <= b` on strings. -/
def pyStrLe (a b : String) : Bool := pyStrLeList a.data b.data

/-- Insert a string into an already sorted list, keeping ties stable. -/
def insertSortedStr (x : String) : List String → List String
  | [] => [x]
  | y :: ys => if pyStrLe x y then x :: y :: ys else y :: insertSortedStr x ys

/-- Python `sorted` on a list of strings (stable, ascending by code point). -/
def pySorted : List String → List String
  | [] => []
  | x :: xs => insertSortedStr x (pySorted xs)

/-- Remove the non-overlapping left-to-right occurrences of `pat` from a
character list, Python `s.replace(pat, "")`. The fuel argument is seeded with
the length of the list, which bounds the number of steps; an empty pattern
leaves the list unchanged, as in Python. -/
def pyRemoveAux (pat : List Char) : Nat → List Char → List Char
  | 0, rest => rest
  | _ + 1, [] => []
  | fuel + 1, c :: cs =>
    if pat <+: c :: cs then
      pyRemoveAux pat fuel ((c :: cs).drop pat.length)
    else
      c :: pyRemoveAux pat fuel cs

/-- Python `s.replace(pat, "")`: delete every occurrence of `pat`. -/
def pyRemoveAll (s pat : String) : String :=
  ⟨pyRemoveAux pat.data s.data.length s.data⟩

/-- Python dict lookup `m.get(k)` on an association list: first matching key. -/
def dictLookup (m : List (String × String)) (k : String) : Option String :=
  (m.find? (fun p => p.1 == k)).map Prod.snd

/-- Python dict assignment `m[k] = v`: overwrite in place if present, else append. -/
def dictSet (m : List (String × String)) (k v : String) : List (String × String) :=
  if (m.map Prod.fst).contains k then
    m.map (fun p => if p.1 == k then (k, v) else p)
  else
    m ++ [(k, v)]

/-- Python dict deletion `del m[k]`. -/
def dictDel (m : List (String × String)) (k : String) : List (String × String) :=
  m.filter (fun p => p.1 != k)

/-- The label `document_type` of a schema field, as dispatched on in
`GetLabelFieldsStatistics.get_field_stats`; label containers other than the
four special-cased ones fall into `other`, carrying their type name. -/
inductive LabelDocType where
  | detections
  | classification
  | polylines
  | keypoints
  | other (typeName : String)
deriving DecidableEq, Repr

/-- Python `doc_type.__name__`. -/
def LabelDocType.typeName : LabelDocType → String
  | .detections => "Detections"
  | .classification => "Classification"
  | .polylines => "Polylines"
  | .keypoints => "Keypoints"
  | .other n => n

/-- Whether a label field lives at sample level or frame level. -/
inductive FieldLevel where
  | sample
  | frame
deriving DecidableEq, Repr

/-- One entry of the dataset's evaluation registry: the evaluation key and the
`pred_field` / `gt_field` of its config. -/
structure EvalRun where
  key : String
  predField : String
  gtField : String
deriving DecidableEq, Repr

/-- A host-managed saved view: name, optional description and color, and
creation / last-modification timestamps (opaque, modelled as `Nat`). -/
structure SavedView where
  name : String
  description : Option String
  color : Option String
  createdAt : Nat
  lastModifiedAt : Nat
deriving DecidableEq, Repr

/-- The host dataset state and query surface consumed by the plugin. -/
structure Dataset where
  /-- `get_field_schema(embedded_doc_type=fo.Label)`: name and doc type per field. -/
  sampleLabelSchema : List (String × LabelDocType)
  /-- `get_frame_field_schema(embedded_doc_type=fo.Label)`; `none` models `None`. -/
  frameLabelSchema : Option (List (String × LabelDocType))
  /-- `get_field_schema(flat=True).keys()`. -/
  flatSampleSchema : List String
  /-- `get_frame_field_schema(flat=True)`; `none` models `None`. -/
  flatFrameSchema : Option (List String)
  /-- `list_evaluations()` together with each run's loaded config. -/
  evaluations : List EvalRun
  /-- The value stored under the `model_picker_field_notes` metadata key;
  `none` models the key being absent (or `dataset.info` being falsy). -/
  infoNotes : Option (List (String × String))
  /-- `list_saved_views()` with per-view info. -/
  savedViews : List SavedView
  /-- Aggregation oracle `dataset.count(path)`; `Except.error` models a raise. -/
  count : String → Except String Nat
  /-- Aggregation oracle `dataset.distinct(path)`; values may be `None`. -/
  distinct : String → Except String (List (Option String))

/-- `get_field_notes`: the stored notes mapping, or `{}` when absent. -/
def get_field_notes (ds : Dataset) : List (String × String) :=
  ds.infoNotes.getD []

/-- `save_field_notes`: write the mapping back under the metadata key. -/
def save_field_notes (ds : Dataset) (notes : List (String × String)) : Dataset :=
  { ds with infoNotes := some notes }

/-- `get_all_label_fields`: sample-level label field names followed by
frame-level ones (empty when the frame schema is `None`). -/
def get_all_label_fields (ds : Dataset) : List String :=
  ds.sampleLabelSchema.map Prod.fst ++ (ds.frameLabelSchema.getD []).map Prod.fst

/-- `sample_schema + frame_schema` of the flat schemas inside
`generate_field_exclude_mapping` (frame part `[]` when `None`). -/
def allFlatFields (ds : Dataset) : List String :=
  ds.flatSampleSchema ++ ds.flatFrameSchema.getD []

/-- The role an evaluation run assigns to a field. -/
inductive EvalRole where
  | prediction
  | ground_truth
deriving DecidableEq, Repr

/-- One record appended by `generate_field_eval_mapping`. -/
structure EvalInfo where
  eval_key : String
  role : EvalRole
deriving DecidableEq, Repr

/-- The list `generate_field_eval_mapping(dataset, label_fields)[field]`: for
each registered evaluation in registry order, a prediction record when its
`pred_field` is in `label_fields` and equals `field`, then a ground-truth
record when its `gt_field` is in `label_fields` and equals `field` (the
defaultdict yields `[]` for fields never appended to). -/
def evalInfosFor (ds : Dataset) (label_fields : List String) (field : String) :
    List EvalInfo :=
  ds.evaluations.flatMap (fun e =>
    (if label_fields.contains e.predField && e.predField == field then
      [⟨e.key, .prediction⟩] else []) ++
    (if label_fields.contains e.gtField && e.gtField == field then
      [⟨e.key, .ground_truth⟩] else []))

/-- `generate_field_exclude_mapping(dataset, label_fields)[field]`: for a label
field, `[field]` extended, per associated evaluation, with every flat schema
field containing the eval key and not starting with the field's own name,
then passed through `list(set(...))` (modelled as `dedup`; the Python set
order is unspecified). For a field outside `label_fields` the defaultdict
yields `[]`. -/
def fields_exclude_map (ds : Dataset) (label_fields : List String) (field : String) :
    List String :=
  if label_fields.contains field then
    (field :: (evalInfosFor ds label_fields field).flatMap (fun info =>
      (allFlatFields ds).filter (fun f =>
        strContains f info.eval_key && !(strStartsWith f field)))).dedup
  else []

/-- `UpdateFieldNotes.execute`: non-empty text upserts the note, empty text
deletes the entry when present; the mapping is saved back in all cases. -/
def updateFieldNotesExec (ds : Dataset) (field_name notes_text : String) : Dataset :=
  let all_notes := get_field_notes ds
  if notes_text ≠ "" then
    save_field_notes ds (dictSet all_notes field_name notes_text)
  else if (all_notes.map Prod.fst).contains field_name then
    save_field_notes ds (dictDel all_notes field_name)
  else
    save_field_notes ds all_notes

/-- The observable outcome of `ApplyModelPicker.execute`: the deduplicated
field list handed to `exclude_fields`/`set_view` when non-empty (`none` when
no filter is applied), and the two returned counts. -/
structure ApplyResult where
  setViewArg : Option (List String)
  excluded_count : Nat
  selected_count : Nat
deriving DecidableEq, Repr

/-- `ApplyModelPicker.execute`: hide the complement of `selected_fields`
against all label fields, expand through the exclude mapping, and apply
`exclude_fields(list(set(...)))` only when the list is non-empty. -/
def applyModelPicker (ds : Dataset) (selected_fields : List String) : ApplyResult :=
  let all_fields := get_all_label_fields ds
  let fields_to_hide := all_fields.filter (fun f => !(selected_fields.contains f))
  let exclude_fields := fields_to_hide.flatMap
    (fun field => fields_exclude_map ds all_fields field)
  if exclude_fields.isEmpty then
    ⟨none, fields_to_hide.length, selected_fields.length⟩
  else
    ⟨some exclude_fields.dedup, fields_to_hide.length, selected_fields.length⟩

/-- `ModelPicker.execute`: the field list handed to `exclude_fields`/`set_view`
given the per-field boolean toggles (`params`). The fields whose toggle is
off are expanded through the exclude mapping and concatenated as-is — this
operator applies no `set(...)` deduplication. -/
def modelPickerExcludeFields (ds : Dataset) (params : String → Bool) : List String :=
  let label_fields := get_all_label_fields ds
  let selected_fields := label_fields.filter (fun l => !(params l))
  selected_fields.flatMap (fun l => fields_exclude_map ds label_fields l)

/-- One entry of the `GetLabelFieldsStatistics` response. -/
structure FieldStats where
  name : String
  level : FieldLevel
  type : String
  total_labels : Nat
  classes : List String
  notes : String
deriving DecidableEq, Repr

/-- The `field_path` computed in `get_field_stats` for a given level. -/
def statsFieldPath (level : FieldLevel) (field_name : String) : String :=
  match level with
  | .sample => field_name
  | .frame => "frames." ++ field_name

/-- The path handed to `dataset.count` per label type in `get_field_stats`. -/
def countQueryPath (doc_type : LabelDocType) (field_path : String) : String :=
  match doc_type with
  | .detections => field_path ++ ".detections"
  | .classification => field_path ++ ".label"
  | .polylines => field_path ++ ".polylines"
  | .keypoints => field_path ++ ".keypoints"
  | .other _ => field_path

/-- The path handed to `dataset.distinct` per label type in `get_field_stats`. -/
def distinctQueryPath (doc_type : LabelDocType) (field_path : String) : String :=
  match doc_type with
  | .detections => field_path ++ ".detections.label"
  | .classification => field_path ++ ".label"
  | .polylines => field_path ++ ".polylines.label"
  | .keypoints => field_path ++ ".keypoints.label"
  | .other _ => field_path ++ ".label"

/-- `get_field_stats` inside `GetLabelFieldsStatistics.execute`. The stats
record starts at the defaults `total_labels = 0`, `classes = []`. The count
query runs first and its result is assigned to `total_labels`; a raise there
hits the outer `except` and leaves both defaults. The distinct query runs
second: a raise there (outer `except` for the four special-cased types, the
inner `except` for the generic fallback) leaves `classes` at `[]` but keeps
the already-assigned `total_labels`. On success `classes` is the sorted list
of non-`None` distinct values. -/
def get_field_stats (ds : Dataset) (field_notes : List (String × String))
    (field_name : String) (doc_type : LabelDocType) (level : FieldLevel) :
    FieldStats :=
  let field_path := statsFieldPath level field_name
  let base : FieldStats :=
    { name := field_name
      level := level
      type := doc_type.typeName
      total_labels := 0
      classes := []
      notes := (dictLookup field_notes field_name).getD "" }
  match ds.count (countQueryPath doc_type field_path) with
  | .error _ => base
  | .ok n =>
    match ds.distinct (distinctQueryPath doc_type field_path) with
    | .error _ => { base with total_labels := n }
    | .ok cs =>
      { base with total_labels := n, classes := pySorted (cs.filterMap id) }

/-- `GetLabelFieldsStatistics.execute`: per-field stats for the sample-level
and frame-level label schemas. -/
def getLabelFieldsStatistics (ds : Dataset) : List FieldStats × List FieldStats :=
  let field_notes := get_field_notes ds
  (ds.sampleLabelSchema.map (fun p => get_field_stats ds field_notes p.1 p.2 .sample),
   (ds.frameLabelSchema.getD []).map (fun p => get_field_stats ds field_notes p.1 p.2 .frame))

/-- The ownership marker prefixed to saved-view descriptions. -/
def mpMarker : String := "[Model Picker]"

/-- The `full_description` computed by `SaveModelPickerView.execute`:
`"[Model Picker] " + description` when the description is truthy, the bare
marker otherwise. -/
def fullDescription (description : Option String) : String :=
  match description with
  | some d => if d ≠ "" then "[Model Picker] " ++ d else "[Model Picker]"
  | none => "[Model Picker]"

/-- `SaveModelPickerView.execute`: save the current view under `name` with the
marker-prefixed description. The host primitive `save_view(..., overwrite=True)`
is modelled as removing any registry entry with the same name and appending
the new one, stamped with the host clock `now`. -/
def saveModelPickerViewExec (ds : Dataset) (name : String)
    (description : Option String) (color : Option String) (now : Nat) : Dataset :=
  { ds with savedViews :=
      ds.savedViews.filter (fun w => w.name != name) ++
        [⟨name, some (fullDescription description), color, now, now⟩] }

/-- One entry of the `ListModelPickerViews` response. -/
structure ViewInfo where
  name : String
  description : String
  created_at : Nat
  last_modified_at : Nat
deriving DecidableEq, Repr

/-- `ListModelPickerViews.execute`: keep the saved views whose description is
truthy and starts with the marker; report each with the description passed
through `description.replace("[Model Picker]", "").strip()` (every occurrence
of the marker removed, then surrounding whitespace stripped) and the
timestamps. -/
def listModelPickerViews (ds : Dataset) : List ViewInfo :=
  ds.savedViews.filterMap (fun w =>
    match w.description with
    | none => none
    | some d =>
      if d != "" && strStartsWith d mpMarker then
        some ⟨w.name, pyStrip (pyRemoveAll d mpMarker), w.createdAt, w.lastModifiedAt⟩
      else
        none)

/-- The structured result of `DeleteModelPickerView.execute`. -/
structure DeleteResult where
  success : Bool
  error : Option String
  deleted_view : Option String
deriving DecidableEq, Repr

/-- `DeleteModelPickerView.execute`. The `name` parameter is optional and
checked for truthiness; the registry lookup is by name only. The host
primitive `delete_saved_view` may raise, modelled by the `hostDelete` oracle;
the surrounding try/except converts a raise into `{success: false, error:
<message>}`. -/
def deleteModelPickerView (ds : Dataset) (nameParam : Option String)
    (hostDelete : Dataset → String → Except String Dataset) : DeleteResult :=
  match nameParam with
  | none => ⟨false, some "View name is required", none⟩
  | some n =>
    if n = "" then ⟨false, some "View name is required", none⟩
    else if !((ds.savedViews.map SavedView.name).contains n) then
      ⟨false, some ("View '" ++ n ++ "' does not exist"), none⟩
    else
      match hostDelete ds n with
      | .ok _ => ⟨true, none, some n⟩
      | .error e => ⟨false, some e, none⟩

/-! ### Concrete host states used to instantiate the theorems -/

/-- A dataset with no fields, no evaluations, no notes and no saved views. -/
def baseDS : Dataset :=
  { sampleLabelSchema := []
    frameLabelSchema := none
    flatSampleSchema := []
    flatFrameSchema := none
    evaluations := []
    infoNotes := none
    savedViews := []
    count := fun _ => .ok 0
    distinct := fun _ => .ok [] }

/-- One label field `predictions` evaluated by run `eval1`, whose generated
column `eval1_tp` sits in the flat schema. -/
def dsW1 : Dataset :=
  { baseDS with
      sampleLabelSchema := [("predictions", .detections)]
      flatSampleSchema := ["predictions", "eval1_tp", "other"]
      evaluations := [⟨"eval1", "predictions", "gt"⟩] }

/-- A single label field `a` and nothing else. -/
def dsW2 : Dataset :=
  { baseDS with
      sampleLabelSchema := [("a", .detections)]
      flatSampleSchema := ["a"] }

/-- Two label fields compared by one evaluation run `e`; the schema field
`e_results` contains the eval key, so it lands in both fields' exclude sets. -/
def dsX3 : Dataset :=
  { baseDS with
      sampleLabelSchema := [("a", .detections), ("b", .detections)]
      flatSampleSchema := ["a", "b", "e_results"]
      evaluations := [⟨"e", "a", "b"⟩] }

/-- Saved views covering each branch of the ownership filter: marked, wrong
case, missing description, and marker not at the start. -/
def dsW5 : Dataset :=
  { baseDS with
      savedViews := [⟨"v1", some "[Model Picker] hello", none, 1, 2⟩,
        ⟨"v2", some "[model picker] x", none, 3, 4⟩,
        ⟨"v3", none, none, 5, 6⟩,
        ⟨"v4", some "x [Model Picker] y", none, 7, 8⟩] }

/-- A saved view whose description contains the marker twice. -/
def dsX6 : Dataset :=
  { baseDS with
      savedViews := [⟨"v", some "[Model Picker] a [Model Picker] b", none, 1, 2⟩] }

/-- A single saved view named `v` with no description. -/
def dsW7 : Dataset :=
  { baseDS with savedViews := [⟨"v", none, none, 0, 0⟩] }

/-- A dataset whose aggregation queries all fail. -/
def dsW9 : Dataset :=
  { baseDS with count := fun _ => .error "down", distinct := fun _ => .error "down" }

/-- A dataset where counting succeeds (returning 5) but `distinct` raises. -/
def dsX9 : Dataset :=
  { baseDS with count := fun _ => .ok 5, distinct := fun _ => .error "boom" }

/-- A single saved view whose description lacks the Model Picker marker. -/
def dsW10 : Dataset :=
  { baseDS with savedViews := [⟨"plain", some "not owned", none, 3, 4⟩] }

/-! ### Supporting lemmas -/

lemma mem_evalInfosFor {ds : Dataset} {lf : List String} {field : String} {info : EvalInfo} :
    info ∈ evalInfosFor ds lf field ↔
      ∃ e ∈ ds.evaluations,
        ((e.predField = field ∧ field ∈ lf ∧ info = ⟨e.key, .prediction⟩) ∨
         (e.gtField = field ∧ field ∈ lf ∧ info = ⟨e.key, .ground_truth⟩)) := by
  simp only [evalInfosFor, List.mem_flatMap, List.mem_append,
    List.mem_ite_nil_right, List.mem_singleton, Bool.and_eq_true,
    List.elem_iff, beq_iff_eq]
  constructor
  · rintro ⟨e, he, ⟨⟨hm, hf⟩, hi⟩ | ⟨⟨hm, hf⟩, hi⟩⟩
    · exact ⟨e, he, Or.inl ⟨hf, hf ▸ hm, hi⟩⟩
    · exact ⟨e, he, Or.inr ⟨hf, hf ▸ hm, hi⟩⟩
  · rintro ⟨e, he, ⟨hf, hm, hi⟩ | ⟨hf, hm, hi⟩⟩
    · exact ⟨e, he, Or.inl ⟨⟨hf ▸ hm, hf⟩, hi⟩⟩
    · exact ⟨e, he, Or.inr ⟨⟨hf ▸ hm, hf⟩, hi⟩⟩

lemma mem_fields_exclude_map {ds : Dataset} {lf : List String} {field x : String}
    (h : field ∈ lf) :
    x ∈ fields_exclude_map ds lf field ↔
      (x = field ∨ (x ∈ allFlatFields ds ∧ ∃ e ∈ ds.evaluations,
        (e.predField = field ∨ e.gtField = field) ∧
        strContains x e.key = true ∧ strStartsWith x field = false)) := by
  rw [fields_exclude_map, if_pos (by simpa [List.elem_iff] using h)]
  simp only [List.mem_dedup, List.mem_cons, List.mem_flatMap, List.mem_filter,
    Bool.and_eq_true, Bool.not_eq_true']
  constructor
  · rintro (rfl | ⟨info, hinfo, hx, hc, hs⟩)
    · exact Or.inl rfl
    · rcases mem_evalInfosFor.mp hinfo with ⟨e, he, ⟨hf, _, rfl⟩ | ⟨hf, _, rfl⟩⟩
      · exact Or.inr ⟨hx, e, he, Or.inl hf, hc, hs⟩
      · exact Or.inr ⟨hx, e, he, Or.inr hf, hc, hs⟩
  · rintro (rfl | ⟨hx, e, he, hrole | hrole, hc, hs⟩)
    · exact Or.inl rfl
    · exact Or.inr ⟨⟨e.key, .prediction⟩,
        mem_evalInfosFor.mpr ⟨e, he, Or.inl ⟨hrole, h, rfl⟩⟩, hx, hc, hs⟩
    · exact Or.inr ⟨⟨e.key, .ground_truth⟩,
        mem_evalInfosFor.mpr ⟨e, he, Or.inr ⟨hrole, h, rfl⟩⟩, hx, hc, hs⟩

lemma self_mem_fields_exclude_map {ds : Dataset} {lf : List String} {field : String}
    (h : field ∈ lf) : field ∈ fields_exclude_map ds lf field :=
  (mem_fields_exclude_map h).mpr (Or.inl rfl)

lemma dictLookup_dictSet (m : List (String × String)) (k v : String) :
    dictLookup (dictSet m k v) k = some v := by
  rw [dictSet]
  split
  · rename_i hc
    rw [dictLookup]
    induction m with
    | nil => simp at hc
    | cons p m ih =>
      simp only [List.map_cons]
      by_cases hpk : p.1 == k
      · rw [if_pos hpk]
        have hfind : List.find? (fun q => q.1 == k)
            ((k, v) :: m.map (fun q => if q.1 == k then (k, v) else q)) = some (k, v) :=
          List.find?_cons_of_pos _ (by simp)
        rw [hfind]
        rfl
      · rw [if_neg hpk]
        have hp' : ¬ ((fun q : String × String => q.1 == k) p = true) := by simpa using hpk
        have hfind : List.find? (fun q : String × String => q.1 == k)
            (p :: m.map (fun q => if q.1 == k then (k, v) else q))
            = List.find? (fun q : String × String => q.1 == k)
              (m.map (fun q => if q.1 == k then (k, v) else q)) :=
          List.find?_cons_of_neg _ hp'
        rw [hfind]
        apply ih
        simp only [List.map_cons, List.contains_cons] at hc
        rcases Bool.or_eq_true_iff.mp hc with h | h
        · exact absurd (beq_iff_eq.mpr (beq_iff_eq.mp h).symm) hpk
        · exact h
  · rename_i hc
    rw [dictLookup]
    have hnone : m.find? (fun p => p.1 == k) = none := by
      refine List.find?_eq_none.mpr ?_
      intro p hp hpk
      exact hc (List.elem_iff.mpr (List.mem_map.mpr ⟨p, hp, by simpa using hpk⟩))
    have hsingle : List.find? (fun q : String × String => q.1 == k) [(k, v)] = some (k, v) :=
      List.find?_cons_of_pos _ (by simp)
    rw [List.find?_append, hnone, Option.none_or, hsingle]
    rfl

lemma mem_keys_dictSet (m : List (String × String)) (k v : String) :
    k ∈ (dictSet m k v).map Prod.fst := by
  rw [dictSet]
  split
  · rename_i hc
    rcases List.mem_map.mp (List.elem_iff.mp hc) with ⟨p, hp, hpk⟩
    exact List.mem_map.mpr ⟨(k, v), List.mem_map.mpr ⟨p, hp, by simp [hpk]⟩, rfl⟩
  · simp

lemma not_mem_keys_dictDel (m : List (String × String)) (k : String) :
    k ∉ (dictDel m k).map Prod.fst := by
  simp only [dictDel, List.mem_map, List.mem_filter]
  rintro ⟨p, ⟨hp, hne⟩, rfl⟩
  simp at hne

lemma dictLookup_eq_none_of_not_mem_keys {m : List (String × String)} {k : String}
    (h : k ∉ m.map Prod.fst) : dictLookup m k = none := by
  rw [dictLookup]
  have hnone : m.find? (fun p => p.1 == k) = none := by
    refine List.find?_eq_none.mpr ?_
    intro p hp hpk
    exact h (List.mem_map.mpr ⟨p, hp, by simpa using hpk⟩)
  rw [hnone]
  rfl

lemma get_save_field_notes (ds : Dataset) (notes : List (String × String)) :
    get_field_notes (save_field_notes ds notes) = notes := rfl

lemma applyModelPicker_setViewArg (ds : Dataset) (selected : List String) :
    (applyModelPicker ds selected).setViewArg =
      (if ((get_all_label_fields ds).filter (fun f => !(selected.contains f))).flatMap
          (fun field => fields_exclude_map ds (get_all_label_fields ds) field) |>.isEmpty
       then none
       else some (((get_all_label_fields ds).filter (fun f => !(selected.contains f))).flatMap
          (fun field => fields_exclude_map ds (get_all_label_fields ds) field)).dedup) := by
  rw [applyModelPicker]
  split <;> rfl

lemma mem_hidden_flatMap {ds : Dataset} {selected : List String} {x : String} :
    x ∈ ((get_all_label_fields ds).filter (fun f => !(selected.contains f))).flatMap
        (fun field => fields_exclude_map ds (get_all_label_fields ds) field) ↔
      ∃ field ∈ get_all_label_fields ds, field ∉ selected ∧
        x ∈ fields_exclude_map ds (get_all_label_fields ds) field := by
  simp only [List.mem_flatMap, List.mem_filter, Bool.not_eq_true', and_assoc]
  constructor
  · rintro ⟨f, hf, hc, hx⟩
    exact ⟨f, hf, by simpa using hc, hx⟩
  · rintro ⟨f, hf, hc, hx⟩
    exact ⟨f, hf, by simpa using hc, hx⟩

lemma mem_modelPickerExcludeFields {ds : Dataset} {params : String → Bool} {x : String} :
    x ∈ modelPickerExcludeFields ds params ↔
      ∃ field ∈ get_all_label_fields ds, params field = false ∧
        x ∈ fields_exclude_map ds (get_all_label_fields ds) field := by
  simp only [modelPickerExcludeFields, List.mem_flatMap, List.mem_filter,
    Bool.not_eq_true', and_assoc]

lemma mpMarker_data_ne_nil : mpMarker.data ≠ [] := by decide

lemma listCond_iff (d : String) :
    ((d != "" && strStartsWith d mpMarker) = true) ↔ mpMarker.data <+: d.data := by
  rw [Bool.and_eq_true, strStartsWith, decide_eq_true_eq, bne_iff_ne]
  constructor
  · exact fun h => h.2
  · intro h
    refine ⟨?_, h⟩
    intro hd
    subst hd
    exact mpMarker_data_ne_nil (List.prefix_nil.mp h)

lemma mem_listModelPickerViews {ds : Dataset} {v : ViewInfo} :
    v ∈ listModelPickerViews ds ↔
      ∃ w ∈ ds.savedViews, ∃ d, w.description = some d ∧
        mpMarker.data <+: d.data ∧
        v = ⟨w.name, pyStrip (pyRemoveAll d mpMarker), w.createdAt, w.lastModifiedAt⟩ := by
  simp only [listModelPickerViews, List.mem_filterMap]
  constructor
  · rintro ⟨w, hw, hv⟩
    cases hd : w.description with
    | none => rw [hd] at hv; cases hv
    | some d =>
      rw [hd] at hv
      dsimp only at hv
      by_cases hc : (d != "" && strStartsWith d mpMarker) = true
      · rw [if_pos hc] at hv
        cases hv
        exact ⟨w, hw, d, hd, (listCond_iff d).mp hc, rfl⟩
      · rw [if_neg hc] at hv
        cases hv
  · rintro ⟨w, hw, d, hd, hpre, rfl⟩
    refine ⟨w, hw, ?_⟩
    rw [hd]
    dsimp only
    rw [if_pos ((listCond_iff d).mpr hpre)]

lemma marker_prefix_fullDescription (description : Option String) :
    mpMarker.data <+: (fullDescription description).data := by
  cases description with
  | none => exact List.prefix_rfl
  | some d =>
    rw [fullDescription]
    by_cases hd : d ≠ ""
    · rw [if_pos hd]
      have h1 : mpMarker.data <+: ("[Model Picker] ").data := by decide
      exact h1.trans (List.prefix_append _ _)
    · rw [if_neg hd]
      exact List.prefix_rfl

/-! ### Claim theorems -/

/-- C1: for every dataset and label-field set, `generate_field_exclude_mapping`
maps each label field to the set consisting of the field itself together with
every flat schema field (sample or frame level) whose name contains the key of
an evaluation run associated with that field (as prediction or ground truth)
and that does not start with the field's own name; in particular every label
field is a member of its own exclude set. -/
theorem c1_exclude_mapping (ds : Dataset) (label_fields : List String) (field : String)
    (h : field ∈ label_fields) :
    (∀ x, x ∈ fields_exclude_map ds label_fields field ↔
      (x = field ∨ (x ∈ allFlatFields ds ∧ ∃ e ∈ ds.evaluations,
        (e.predField = field ∨ e.gtField = field) ∧
        strContains x e.key = true ∧ strStartsWith x field = false))) ∧
    field ∈ fields_exclude_map ds label_fields field :=
  ⟨fun _ => mem_fields_exclude_map h, self_mem_fields_exclude_map h⟩

/-- Witness for C1 on a concrete dataset: the eval-generated field `eval1_tp`
satisfies the characterization and `predictions` lies in its own exclude set. -/
theorem c1_witness :
    ("predictions" : String) ∈ ["predictions"] ∧
    ("eval1_tp" ∈ fields_exclude_map dsW1 ["predictions"] "predictions" ↔
      ("eval1_tp" = "predictions" ∨ ("eval1_tp" ∈ allFlatFields dsW1 ∧
        ∃ e ∈ dsW1.evaluations,
          (e.predField = "predictions" ∨ e.gtField = "predictions") ∧
          strContains "eval1_tp" e.key = true ∧
          strStartsWith "eval1_tp" "predictions" = false))) ∧
    "predictions" ∈ fields_exclude_map dsW1 ["predictions"] "predictions" := by
  have h := c1_exclude_mapping dsW1 ["predictions"] "predictions" (by decide)
  exact ⟨by decide, h.1 "eval1_tp", h.2⟩

/-- C2: invoking `ApplyModelPicker` with an empty selection requests an
exclusion filter covering the full exclude-mapping set of every label field,
while a selection containing all label fields applies no exclusion filter
(`set_view` is not invoked, the view stays unfiltered). -/
theorem c2_apply_extremes (ds : Dataset) :
    (∀ field ∈ get_all_label_fields ds,
      ∀ x ∈ fields_exclude_map ds (get_all_label_fields ds) field,
        ∃ l, (applyModelPicker ds []).setViewArg = some l ∧ x ∈ l) ∧
    (∀ selected : List String, (∀ f ∈ get_all_label_fields ds, f ∈ selected) →
      (applyModelPicker ds selected).setViewArg = none) := by
  constructor
  · intro field hfield x hx
    have hmem : x ∈ ((get_all_label_fields ds).filter
        (fun f => !(([] : List String).contains f))).flatMap
        (fun field => fields_exclude_map ds (get_all_label_fields ds) field) :=
      mem_hidden_flatMap.mpr ⟨field, hfield, by simp, hx⟩
    have hne : (((get_all_label_fields ds).filter
        (fun f => !(([] : List String).contains f))).flatMap
        (fun field => fields_exclude_map ds (get_all_label_fields ds) field)).isEmpty
          = false :=
      List.isEmpty_eq_false.mpr (List.ne_nil_of_mem hmem)
    rw [applyModelPicker_setViewArg, if_neg (by rw [hne]; simp)]
    exact ⟨_, rfl, List.mem_dedup.mpr hmem⟩
  · intro selected hsel
    have hfilter : (get_all_label_fields ds).filter (fun f => !(selected.contains f))
        = [] := by
      refine List.filter_eq_nil_iff.mpr ?_
      intro f hf
      simp [hsel f hf]
    rw [applyModelPicker_setViewArg, hfilter]
    simp

/-- Witness for C2 on a concrete one-field dataset: hiding everything excludes
the field, selecting everything leaves the view untouched. -/
theorem c2_witness :
    ("a" : String) ∈ get_all_label_fields dsW2 ∧
    (∃ l, (applyModelPicker dsW2 []).setViewArg = some l ∧ "a" ∈ l) ∧
    (applyModelPicker dsW2 ["a"]).setViewArg = none := by
  have h := c2_apply_extremes dsW2
  exact ⟨by decide, h.1 "a" (by decide) "a" (by decide), h.2 ["a"] (by decide)⟩

/-- C3 counterexample: `ModelPicker.execute` passes its exclude list to the
host without deduplication — hiding both fields of `dsX3` hands over
`e_results` twice, so the list passed to `exclude_fields` has duplicates,
contradicting the claim that both operators pass a deduplicated list. -/
theorem c3_counterexample :
    modelPickerExcludeFields dsX3 (fun _ => false) =
      ["a", "e_results", "b", "e_results"] ∧
    ¬ (modelPickerExcludeFields dsX3 (fun _ => false)).Nodup :=
  ⟨by decide, by decide⟩

/-- C3 (amended): for both operators the hidden set is the complement of the
selected fields against all label fields expanded through the exclude
mapping; `ApplyModelPicker` deduplicates the list it passes to the host,
while `ModelPicker` passes the per-field expansions concatenated without
cross-field deduplication. -/
theorem c3_complement_expand_dedup (ds : Dataset) (selected : List String)
    (params : String → Bool) :
    (∀ x : String,
      (∃ l, (applyModelPicker ds selected).setViewArg = some l ∧ x ∈ l) ↔
      (∃ field ∈ get_all_label_fields ds, field ∉ selected ∧
        x ∈ fields_exclude_map ds (get_all_label_fields ds) field)) ∧
    (∀ l, (applyModelPicker ds selected).setViewArg = some l → l.Nodup) ∧
    (∀ x : String,
      x ∈ modelPickerExcludeFields ds params ↔
      (∃ field ∈ get_all_label_fields ds, params field = false ∧
        x ∈ fields_exclude_map ds (get_all_label_fields ds) field)) := by
  refine ⟨?_, ?_, fun _ => mem_modelPickerExcludeFields⟩
  · intro x
    rw [applyModelPicker_setViewArg]
    constructor
    · rintro ⟨l, hl, hx⟩
      split at hl
      · exact absurd hl (by simp)
      · cases hl
        exact mem_hidden_flatMap.mp (List.mem_dedup.mp hx)
    · intro h
      have hmem := mem_hidden_flatMap.mpr h
      have hne := List.isEmpty_eq_false.mpr (List.ne_nil_of_mem hmem)
      rw [if_neg (by rw [hne]; simp)]
      exact ⟨_, rfl, List.mem_dedup.mpr hmem⟩
  · intro l hl
    rw [applyModelPicker_setViewArg] at hl
    split at hl
    · exact absurd hl (by simp)
    · cases hl
      exact List.nodup_dedup _

/-- Witness for the amended C3 on `dsX3`: hiding everything through
`ApplyModelPicker` passes a duplicate-free list containing `e_results`, and
`ModelPicker` also includes `e_results`. -/
theorem c3_witness :
    (∃ l, (applyModelPicker dsX3 []).setViewArg = some l ∧ "e_results" ∈ l) ∧
    (["a", "b", "e_results"] : List String).Nodup ∧
    ("e_results" : String) ∈ modelPickerExcludeFields dsX3 (fun _ => false) := by
  have h := c3_complement_expand_dedup dsX3 [] (fun _ => false)
  exact ⟨(h.1 "e_results").mpr ⟨"a", by decide, by decide, by decide⟩,
    h.2.1 ["a", "b", "e_results"] (by decide),
    (h.2.2 "e_results").mpr ⟨"a", by decide, rfl, by decide⟩⟩

/-- C4: storing a non-empty note for a field makes a subsequent read of the
notes mapping return exactly that note, and a following update with an empty
note removes the field's entry entirely — the key is absent from the stored
mapping, not mapped to the empty string. -/
theorem c4_field_notes_roundtrip (ds : Dataset) (field t : String) (h : t ≠ "") :
    dictLookup (get_field_notes (updateFieldNotesExec ds field t)) field = some t ∧
    field ∉ (get_field_notes
      (updateFieldNotesExec (updateFieldNotesExec ds field t) field "")).map Prod.fst ∧
    dictLookup (get_field_notes
      (updateFieldNotesExec (updateFieldNotesExec ds field t) field "")) field = none := by
  have h1 : get_field_notes (updateFieldNotesExec ds field t)
      = dictSet (get_field_notes ds) field t := by
    rw [updateFieldNotesExec]
    rw [if_pos h]
    rfl
  have hmem : ((dictSet (get_field_notes ds) field t).map Prod.fst).contains field :=
    List.elem_iff.mpr (mem_keys_dictSet _ _ _)
  have h2 : get_field_notes (updateFieldNotesExec (updateFieldNotesExec ds field t) field "")
      = dictDel (dictSet (get_field_notes ds) field t) field := by
    rw [updateFieldNotesExec, h1]
    rw [if_neg (by simp), if_pos hmem]
    rfl
  refine ⟨?_, ?_, ?_⟩
  · rw [h1]
    exact dictLookup_dictSet _ _ _
  · rw [h2]
    exact not_mem_keys_dictDel _ _
  · rw [h2]
    exact dictLookup_eq_none_of_not_mem_keys (not_mem_keys_dictDel _ _)

/-- Witness for C4 starting from the empty store: write `hello` to `f`, read
it back, then erase it with an empty note. -/
theorem c4_witness :
    ("hello" : String) ≠ "" ∧
    dictLookup (get_field_notes (updateFieldNotesExec baseDS "f" "hello")) "f"
      = some "hello" ∧
    "f" ∉ (get_field_notes
      (updateFieldNotesExec (updateFieldNotesExec baseDS "f" "hello") "f" "")).map Prod.fst ∧
    dictLookup (get_field_notes
      (updateFieldNotesExec (updateFieldNotesExec baseDS "f" "hello") "f" "")) "f"
      = none := by
  have h := c4_field_notes_roundtrip baseDS "f" "hello" (by decide)
  exact ⟨by decide, h.1, h.2.1, h.2.2⟩

/-- C5: `ListModelPickerViews` returns exactly the saved views whose stored
description begins with the literal `[Model Picker]` — a case-sensitive
prefix match on the character list — and every view whose description is
missing or lacks that prefix is excluded. -/
theorem c5_marker_filter (ds : Dataset) (v : ViewInfo) :
    v ∈ listModelPickerViews ds ↔
      ∃ w ∈ ds.savedViews, ∃ d, w.description = some d ∧
        mpMarker.data <+: d.data ∧
        v = ⟨w.name, pyStrip (pyRemoveAll d mpMarker), w.createdAt, w.lastModifiedAt⟩ :=
  mem_listModelPickerViews

/-- Witness for C5: in `dsW5` only the marker-prefixed view `v1` is listed;
the lowercase marker, the missing description and the mid-string marker are
all excluded. -/
theorem c5_witness :
    ((⟨"v1", "hello", 1, 2⟩ : ViewInfo) ∈ listModelPickerViews dsW5 ↔
      ∃ w ∈ dsW5.savedViews, ∃ d, w.description = some d ∧
        mpMarker.data <+: d.data ∧
        (⟨"v1", "hello", 1, 2⟩ : ViewInfo) =
          ⟨w.name, pyStrip (pyRemoveAll d mpMarker), w.createdAt, w.lastModifiedAt⟩) ∧
    (listModelPickerViews dsW5).map ViewInfo.name = ["v1"] :=
  ⟨c5_marker_filter dsW5 _, by decide⟩

/-- C6 counterexample: for the stored description
`"[Model Picker] a [Model Picker] b"` the returned description is `"a  b"` —
`replace` deletes the second marker occurrence as well and `strip` trims the
separating whitespace — which differs from the stored description with only
the leading marker removed (`" a [Model Picker] b"`, with or without its
leading space), so the rest of the description is not preserved. -/
theorem c6_counterexample :
    listModelPickerViews dsX6 = [⟨"v", "a  b", 1, 2⟩] ∧
    "[Model Picker] a [Model Picker] b" = mpMarker ++ " a [Model Picker] b" ∧
    ("a  b" : String) ≠ " a [Model Picker] b" ∧
    ("a  b" : String) ≠ "a [Model Picker] b" :=
  ⟨by decide, by decide, by decide, by decide⟩

/-- C6 (amended): every view returned by `ListModelPickerViews` carries the
stored view's name and timestamps, and its description equals the stored
description with every occurrence of `[Model Picker]` removed and leading and
trailing whitespace stripped. -/
theorem c6_amended_description (ds : Dataset) (v : ViewInfo)
    (h : v ∈ listModelPickerViews ds) :
    ∃ w ∈ ds.savedViews, ∃ d, w.description = some d ∧
      mpMarker.data <+: d.data ∧ v.name = w.name ∧
      v.description = pyStrip (pyRemoveAll d mpMarker) ∧
      v.created_at = w.createdAt ∧ v.last_modified_at = w.lastModifiedAt := by
  rcases mem_listModelPickerViews.mp h with ⟨w, hw, d, hd, hpre, rfl⟩
  exact ⟨w, hw, d, hd, hpre, rfl, rfl, rfl, rfl⟩

/-- Witness for the amended C6 at the double-marker view of `dsX6`. -/
theorem c6_witness :
    (⟨"v", "a  b", 1, 2⟩ : ViewInfo) ∈ listModelPickerViews dsX6 ∧
    ∃ w ∈ dsX6.savedViews, ∃ d, w.description = some d ∧
      mpMarker.data <+: d.data ∧
      (⟨"v", "a  b", 1, 2⟩ : ViewInfo).name = w.name ∧
      (⟨"v", "a  b", 1, 2⟩ : ViewInfo).description = pyStrip (pyRemoveAll d mpMarker) ∧
      (⟨"v", "a  b", 1, 2⟩ : ViewInfo).created_at = w.createdAt ∧
      (⟨"v", "a  b", 1, 2⟩ : ViewInfo).last_modified_at = w.lastModifiedAt := by
  have h := c6_amended_description dsX6 ⟨"v", "a  b", 1, 2⟩ (by decide)
  exact ⟨by decide, h⟩

/-- C7: `DeleteModelPickerView` always returns a structured result (the
embedding is a total function into `DeleteResult`): a missing or empty name
yields `success = false` with an error message, a name absent from the
registry yields exactly `{success: false, error: "View '<name>' does not
exist"}`, and a raise from the host delete primitive is caught and returned
as `{success: false, error: <message>}`. -/
theorem c7_delete_structured_errors (ds : Dataset) (nameParam : Option String)
    (hostDelete : Dataset → String → Except String Dataset) :
    ((nameParam = none ∨ nameParam = some "") →
      (deleteModelPickerView ds nameParam hostDelete).success = false ∧
      (deleteModelPickerView ds nameParam hostDelete).error ≠ none) ∧
    (∀ n, nameParam = some n → n ≠ "" →
      n ∉ ds.savedViews.map SavedView.name →
      deleteModelPickerView ds nameParam hostDelete =
        ⟨false, some ("View '" ++ n ++ "' does not exist"), none⟩) ∧
    (∀ n e, nameParam = some n → n ≠ "" →
      n ∈ ds.savedViews.map SavedView.name →
      hostDelete ds n = .error e →
      deleteModelPickerView ds nameParam hostDelete = ⟨false, some e, none⟩) := by
  refine ⟨?_, ?_, ?_⟩
  · rintro (rfl | rfl)
    · exact ⟨rfl, by simp [deleteModelPickerView]⟩
    · rw [deleteModelPickerView]
      exact ⟨by rw [if_pos rfl], by rw [if_pos rfl]; simp⟩
  · rintro n rfl hne hnotin
    rw [deleteModelPickerView]
    rw [if_neg hne, if_pos (by simpa using hnotin)]
  · rintro n e rfl hne hin herr
    rw [deleteModelPickerView]
    rw [if_neg hne, if_neg (by simpa using hin), herr]

/-- Witness for C7: a missing view name, an absent name parameter and a
raising host delete each produce the documented structured error. -/
theorem c7_witness :
    deleteModelPickerView baseDS (some "nope") (fun ds _ => .ok ds) =
      ⟨false, some "View 'nope' does not exist", none⟩ ∧
    (deleteModelPickerView baseDS none (fun ds _ => .ok ds)).success = false ∧
    (deleteModelPickerView baseDS none (fun ds _ => .ok ds)).error ≠ none ∧
    deleteModelPickerView dsW7 (some "v") (fun _ _ => .error "boom") =
      ⟨false, some "boom", none⟩ := by
  have h := c7_delete_structured_errors baseDS (some "nope") (fun ds _ => .ok ds)
  have h0 := c7_delete_structured_errors baseDS none (fun ds _ => .ok ds)
  have h2 := c7_delete_structured_errors dsW7 (some "v") (fun _ _ => .error "boom")
  exact ⟨h.2.1 "nope" rfl (by decide) (by decide),
    (h0.1 (Or.inl rfl)).1, (h0.1 (Or.inl rfl)).2,
    h2.2.2 "v" "boom" rfl (by decide) (by decide) rfl⟩

/-- C8: every view saved by `SaveModelPickerView` stores a description that
begins with the `[Model Picker]` marker — whether or not a description was
supplied — and a subsequent `ListModelPickerViews` call therefore includes a
view with the saved name (save-then-list round trip). -/
theorem c8_save_then_list (ds : Dataset) (name : String)
    (description color : Option String) (now : Nat) :
    (∀ w ∈ (saveModelPickerViewExec ds name description color now).savedViews,
       w.name = name → ∃ d, w.description = some d ∧ mpMarker.data <+: d.data) ∧
    ∃ r ∈ listModelPickerViews (saveModelPickerViewExec ds name description color now),
      r.name = name := by
  constructor
  · intro w hw hname
    rw [saveModelPickerViewExec] at hw
    dsimp only at hw
    rcases List.mem_append.mp hw with hw | hw
    · exact absurd hname (by simpa using (List.mem_filter.mp hw).2)
    · cases List.mem_singleton.mp hw
      exact ⟨fullDescription description, rfl, marker_prefix_fullDescription description⟩
  · refine ⟨⟨name, pyStrip (pyRemoveAll (fullDescription description) mpMarker), now, now⟩,
      ?_, rfl⟩
    apply mem_listModelPickerViews.mpr
    refine ⟨⟨name, some (fullDescription description), color, now, now⟩, ?_,
      fullDescription description, rfl, marker_prefix_fullDescription description, rfl⟩
    rw [saveModelPickerViewExec]
    dsimp only
    exact List.mem_append_right _ (List.mem_singleton.mpr rfl)

/-- Witness for C8: saving `mv` with description `desc` on the empty dataset
stores `[Model Picker] desc` and the saved view shows up in the listing. -/
theorem c8_witness :
    (∃ d, (⟨"mv", some "[Model Picker] desc", none, 7, 7⟩ : SavedView).description
        = some d ∧ mpMarker.data <+: d.data) ∧
    ∃ r ∈ listModelPickerViews (saveModelPickerViewExec baseDS "mv" (some "desc") none 7),
      r.name = "mv" := by
  have h := c8_save_then_list baseDS "mv" (some "desc") none 7
  exact ⟨h.1 ⟨"mv", some "[Model Picker] desc", none, 7, 7⟩ (by decide) rfl, h.2⟩

/-- C9 counterexample: in `dsX9` the count query succeeds with 5 and the
distinct query raises; the exception is swallowed, but the field's entry
reports `total_labels = 5`, not the default 0 the claim requires when any
count-or-distinct query raises. -/
theorem c9_counterexample :
    dsX9.distinct (distinctQueryPath .detections (statsFieldPath .sample "p")) =
      .error "boom" ∧
    (get_field_stats dsX9 [] "p" .detections .sample).total_labels = 5 ∧
    (get_field_stats dsX9 [] "p" .detections .sample).total_labels ≠ 0 :=
  ⟨rfl, by decide, by decide⟩

/-- C9 (amended): `get_field_stats` never propagates a query failure; when the
count query raises, the entry keeps the defaults `total_labels = 0` and
`classes = []`, and when the count succeeds but the distinct query raises,
the entry keeps the counted `total_labels` while only `classes` stays `[]`. -/
theorem c9_amended_stats_defaults (ds : Dataset) (notes : List (String × String))
    (field_name : String) (doc_type : LabelDocType) (level : FieldLevel) :
    (∀ msg, ds.count (countQueryPath doc_type (statsFieldPath level field_name)) =
        .error msg →
      (get_field_stats ds notes field_name doc_type level).total_labels = 0 ∧
      (get_field_stats ds notes field_name doc_type level).classes = []) ∧
    (∀ n msg, ds.count (countQueryPath doc_type (statsFieldPath level field_name)) = .ok n →
      ds.distinct (distinctQueryPath doc_type (statsFieldPath level field_name)) =
        .error msg →
      (get_field_stats ds notes field_name doc_type level).total_labels = n ∧
      (get_field_stats ds notes field_name doc_type level).classes = []) := by
  constructor
  · intro msg h
    rw [get_field_stats]
    dsimp only
    rw [h]
    exact ⟨rfl, rfl⟩
  · intro n msg h1 h2
    rw [get_field_stats]
    dsimp only
    rw [h1, h2]
    exact ⟨rfl, rfl⟩

/-- Witness for the amended C9: failing count queries leave the zero/empty
defaults, and a failing distinct query after a successful count of 5 keeps
`total_labels = 5` with empty classes. -/
theorem c9_witness :
    dsW9.count (countQueryPath .detections (statsFieldPath .sample "p"))
      = .error "down" ∧
    (get_field_stats dsW9 [] "p" .detections .sample).total_labels = 0 ∧
    (get_field_stats dsW9 [] "p" .detections .sample).classes = [] ∧
    (get_field_stats dsX9 [] "p" .detections .sample).total_labels = 5 ∧
    (get_field_stats dsX9 [] "p" .detections .sample).classes = [] := by
  have h := c9_amended_stats_defaults dsW9 [] "p" LabelDocType.detections FieldLevel.sample
  have h2 := c9_amended_stats_defaults dsX9 [] "p" LabelDocType.detections FieldLevel.sample
  exact ⟨rfl, (h.1 "down" rfl).1, (h.1 "down" rfl).2,
    (h2.2 5 "boom" rfl rfl).1, (h2.2 5 "boom" rfl rfl).2⟩

/-- C10: `DeleteModelPickerView` performs no ownership check — for every name
present in the registry whose deletion succeeds it returns
`{success: true, deleted_view: <name>}`, with no condition on the stored
description carrying the `[Model Picker]` marker. -/
theorem c10_delete_without_ownership_check (ds : Dataset) (n : String)
    (hostDelete : Dataset → String → Except String Dataset) (ds' : Dataset)
    (h1 : n ≠ "") (h2 : n ∈ ds.savedViews.map SavedView.name)
    (h3 : hostDelete ds n = .ok ds') :
    deleteModelPickerView ds (some n) hostDelete = ⟨true, none, some n⟩ := by
  rw [deleteModelPickerView]
  rw [if_neg h1, if_neg (by simpa using h2), h3]

/-- Witness for C10: the view `plain` of `dsW10` lacks the marker — it is not
reported by `ListModelPickerViews` — yet deleting it succeeds. -/
theorem c10_witness :
    deleteModelPickerView dsW10 (some "plain") (fun ds _ => .ok ds) =
      ⟨true, none, some "plain"⟩ ∧
    listModelPickerViews dsW10 = [] :=
  ⟨c10_delete_without_ownership_check dsW10 "plain" (fun ds _ => .ok ds) dsW10
    (by decide) (by decide) rfl, by decide⟩

end ModelPickerSpec
